import Mathlib

/-!
Verification of the spreadsheet row/column reconciliation engine of the
higher-pleasures repository (src/src/sheets/client.py, src/src/activities/tracker.py,
src/higher_pleasures.py), against its natural-language specification.

The Python code is shallowly embedded: the proleptic-Gregorian calendar
arithmetic below models the `datetime`/`strftime`/`isocalendar` facts the
client relies on, the grid is a list of rows of cells, and each client
method becomes a Lean function on that state.  Fallible operations return
`Except`; the flows that the claims quantify over also return a trace of
the grid-gateway operations they perform.

Two internal call sites of client.py drop required arguments (a
half-finished refactor that threaded `sheet_name` through every method) and
are embedded as they behave, not as they were meant: the skeleton appends
of `_perform_initialization` (lines 128/132) raise `TypeError` before any
remote call, and the header rewrite of `update_activities_header`
(line 266) binds the category list to `sheet_name` and always fails with a
`SheetError`, so a new category is never appended.
-/

namespace HigherPleasures

/-! ## Calendar model (datetime semantics used by the client) -/

/-- Gregorian leap-year rule, as implemented by Python `datetime`. -/
def isLeap (y : Nat) : Bool := (y % 4 == 0 && y % 100 != 0) || y % 400 == 0

/-- Month lengths for year `y` (index 0 = January). -/
def monthLengths (y : Nat) : List Nat :=
  [31, if isLeap y then 29 else 28, 31, 30, 31, 30, 31, 31, 30, 31, 30, 31]

/-- Days in month `m` (1-based) of year `y`; 0 for out-of-range months. -/
def daysInMonth (y m : Nat) : Nat := (monthLengths y).getD (m - 1) 0

/-- Number of days in year `y`. -/
def daysInYear (y : Nat) : Nat := if isLeap y then 366 else 365

/-- Days in the months strictly before month `m` of year `y`. -/
def daysBeforeMonth (y m : Nat) : Nat :=
  ((List.range (m - 1)).map (fun k => daysInMonth y (k + 1))).sum

/-- Ordinal of the date inside its year (Jan 1 = 1). -/
def dayOfYear (y m d : Nat) : Nat := daysBeforeMonth y m + d

/-- Rata-die day number of a proleptic-Gregorian date (0001-01-01 = 1,
a Monday, exactly as in Python `datetime.toordinal`). -/
def rataDie (y m d : Nat) : Nat :=
  365 * (y - 1) + (y - 1) / 4 + (y - 1) / 400 - (y - 1) / 100 + dayOfYear y m d

/-- Weekday index with Monday = 0 .. Sunday = 6 (Python `date.weekday`). -/
def weekdayIdx (y m d : Nat) : Nat := (rataDie y m d - 1) % 7

/-- Full weekday names, Monday first, as produced by `strftime("%A")`
in the C locale. -/
def weekdayNames : List String :=
  ["Monday", "Tuesday", "Wednesday", "Thursday", "Friday", "Saturday", "Sunday"]

/-- `strftime("%A")` for a date. -/
def weekdayName (y m d : Nat) : String := weekdayNames.getD (weekdayIdx y m d) "Monday"

/-- Full month names as produced by `strftime("%B")` in the C locale. -/
def monthNames : List String :=
  ["January", "February", "March", "April", "May", "June", "July",
   "August", "September", "October", "November", "December"]

/-- `strftime("%B")` for month `m` (1-based). -/
def monthName (m : Nat) : String := monthNames.getD (m - 1) "January"

/-- ISO weekday, Monday = 1 .. Sunday = 7 (`date.isocalendar().weekday`). -/
def isoWeekday (y m d : Nat) : Nat := weekdayIdx y m d + 1

/-- Number of ISO weeks in year `y`: 53 when Jan 1 is a Thursday, or a
Wednesday of a leap year; otherwise 52. -/
def isoWeeksInYear (y : Nat) : Nat :=
  if isoWeekday y 1 1 = 4 ∨ (isLeap y ∧ isoWeekday y 1 1 = 3) then 53 else 52

/-- ISO-8601 week number of the date whose ordinal in year `y` is `i`,
given that date's ISO weekday `wd` (`date.isocalendar().week`). -/
def isoWeekOfOrdinalAux (y i wd : Nat) : Nat :=
  let w := (i + 10 - wd) / 7
  if w = 0 then isoWeeksInYear (y - 1)
  else if isoWeeksInYear y < w then 1
  else w

/-! Conversion from an in-year ordinal back to (month, day): fueled walk
over the months, structurally recursive so the kernel can evaluate it. -/

/-- Walk the months from `m` looking for the one containing in-year
ordinal `i`; `fuel` bounds the walk (12 from January suffices). -/
def monthDayWalk (y : Nat) : Nat → Nat → Nat → Nat × Nat
  | 0, m, i => (m, i)
  | fuel + 1, m, i =>
    if i ≤ daysInMonth y m ∨ 12 ≤ m then (m, i)
    else monthDayWalk y fuel (m + 1) (i - daysInMonth y m)

/-- (month, day) of the date whose in-year ordinal is `i` in year `y`. -/
def ordinalToMonthDay (y i : Nat) : Nat × Nat := monthDayWalk y 12 1 i

/-- ISO week number of ordinal `i` of year `y`. -/
def isoWeekOrd (y i : Nat) : Nat :=
  let md := ordinalToMonthDay y i
  isoWeekOfOrdinalAux y i (isoWeekday y md.1 md.2)

/-! ## Row labels (the strftime formats in client.py) -/

/-- Write-time date label, `strftime("%A, %B %-d")`: weekday name, month
name, day-of-month with no leading zero (`_generate_dates`, line 78). -/
def dateLabel (y m d : Nat) : String :=
  weekdayName y m d ++ ", " ++ monthName m ++ " " ++ Nat.repr d

/-- Day-of-month rendered by `%d`: zero-padded to two digits. -/
def pad2 (d : Nat) : String := if d < 10 then "0" ++ Nat.repr d else Nat.repr d

/-- Lookup-time date label, `strftime("%A, %B %d")`: weekday name, month
name, zero-padded day (`get_date_row_index`, line 154). -/
def lookupLabel (y m d : Nat) : String :=
  weekdayName y m d ++ ", " ++ monthName m ++ " " ++ pad2 d

/-- Week-header label, the f-string `"Week {week_number}"`. -/
def weekLabel (w : Nat) : String := "Week " ++ Nat.repr w

/-- Write-time label of the date at ordinal `i` of year `y`. -/
def dateLabelOrd (y i : Nat) : String :=
  let md := ordinalToMonthDay y i
  dateLabel y md.1 md.2

/-- A date (m, d) is a calendar date of year `y`. -/
def validMD (y m d : Nat) : Prop :=
  1 ≤ m ∧ m ≤ 12 ∧ 1 ≤ d ∧ d ≤ daysInMonth y m

instance (y m d : Nat) : Decidable (validMD y m d) := by
  unfold validMD; infer_instance

/-! ## The year skeleton (`_generate_dates`) -/

/-- `EntryType` from src/src/sheets/models.py. -/
inductive EntryType where
  | weekHeader
  | dateRow
deriving DecidableEq, Repr

/-- The date/week-header generator `_generate_dates` (client.py lines 64-79):
walk the year day by day from January 1, yielding a week-header entry whenever
the ISO week number differs from the one carried in `cw` (initially `none`),
then the date entry.  `i` is the in-year ordinal standing for `current_date`
(the loop guard `current_date.year == year` is `i ≤ daysInYear y`); `fuel`
makes the recursion structural and is chosen larger than any year's length. -/
def genLoop (y : Nat) : Nat → Nat → Option Nat → List (EntryType × String)
  | 0, _, _ => []
  | fuel + 1, i, cw =>
    if i ≤ daysInYear y then
      let w := isoWeekOrd y i
      (if cw = some w then [] else [(EntryType.weekHeader, weekLabel w)]) ++
        (EntryType.dateRow, dateLabelOrd y i) :: genLoop y fuel (i + 1) (some w)
    else []

/-- The full `_generate_dates(year)` sequence. -/
def generate_dates (y : Nat) : List (EntryType × String) :=
  genLoop y (daysInYear y + 1) 1 none

/-- The expected label sequence read off the generator, as
`initialize_year_structure` builds it (line 56): the string of every
yielded pair, week headers included. -/
def expected_dates (y : Nat) : List String := (generate_dates y).map Prod.snd

/-! ## Grid state -/

/-- One spreadsheet cell: a string (labels, headers), a number (durations),
or blank.  The values API returns cell contents as strings; blank and
empty-string cells are both falsy in the Python reads that matter. -/
inductive Cell where
  | str (v : String)
  | num (v : ℚ)
  | blank
deriving DecidableEq, Repr

/-- The numeric reading `float(cell or 0)` used on duration cells: numbers
read as themselves, blank/empty cells as 0.  (String cells other than
numeric renderings never occur in duration columns of grids this engine
writes; they also read as 0 here.) -/
def cellToQ : Cell → ℚ
  | Cell.num q => q
  | _ => 0

/-- The column-A string of a row as the `values` API reports it for range
`A:A`: absent when the row has no first cell or it is blank/empty (such rows
come back as empty lists and are skipped by the `if row` guards). -/
def colAString (row : List Cell) : Option String :=
  match row.head? with
  | some (Cell.str v) => if v = "" then none else some v
  | _ => none

/-- One user's tracking surface: row 1 is `rows.getD 0`, and in general the
1-indexed sheet row `r` is `rows.getD (r-1)`. -/
structure Grid where
  rows : List (List Cell)
deriving DecidableEq, Repr

/-- A grid-gateway operation, recorded by the traced flows. -/
inductive Op where
  | readColA
  | readHeader
  | readRow (r : Nat)
  | clearSheet
  | writeHeader (vs : List Cell)
  | appendRows (rs : List (List Cell))
  | writeRow (r : Nat) (vs : List Cell)
deriving DecidableEq, Repr

/-- Errors raised by the sheets client (`SheetError` / `ValueError`). -/
inductive SheetErr where
  | badRange
  | activityNotFound
deriving DecidableEq, Repr

/-- Errors surfaced by the upsert flow `process_new_entry_sheets`. -/
inductive UpsertErr where
  | negativeDuration
  | rowNotFound
  | sheet (e : SheetErr)
deriving DecidableEq, Repr

/-- A Python-level `TypeError` from a call site that drops a required
argument: raised before the remote call is even attempted, and caught by
nothing in this code. -/
inductive PyErr where
  | typeErr
deriving DecidableEq, Repr

/-- Write `vs` into row index `idx` (0-based): a values `update` overwrites
the first `vs.length` cells and leaves any further existing cells of the row
untouched; writing past the last data row materialises the rows between. -/
def setRowCells (rows : List (List Cell)) (idx : Nat) (vs : List Cell) :
    List (List Cell) :=
  if idx < rows.length then
    rows.set idx (vs ++ (rows.getD idx []).drop vs.length)
  else
    rows ++ List.replicate (idx - rows.length) [] ++ [vs]

/-! ## The sheets client (src/src/sheets/client.py) -/

/-- `get_current_dates` (lines 81-95): the content of column A with the
header row skipped and empty rows dropped. -/
def get_current_dates (g : Grid) : List String :=
  (g.rows.drop 1).filterMap colAString

/-- `clear_sheet` (lines 97-107): batch-clear of `A1:Z1000` (every grid this
engine writes lives inside that range, so the whole surface empties). -/
def clear_sheet (_g : Grid) : Grid := ⟨[]⟩

/-- `_validate_current_structure` (lines 109-115). -/
def validate_current_structure (current expected : List String) : Bool :=
  current.length == expected.length &&
    ((current.zip expected).all fun ce => ce.1 == ce.2)

/-- The header-row cells `["Date"] + activities` of `update_header_row`. -/
def headerCells (activities : List String) : List Cell :=
  Cell.str "Date" :: activities.map Cell.str

/-- The write range of `update_header_row` (line 247) ends at the single
character `chr(65 + len(header_row))`; it parses as an A1 column only when
that code is an uppercase letter. -/
def header_range_ok (activities : List String) : Bool :=
  65 + (1 + activities.length) ≤ 90

/-- The grid mutation of `update_header_row` (lines 242-258): row 1 becomes
`["Date"] + activities` (cells of row 1 beyond the written values keep their
content, per values-update semantics). -/
def update_header_row (g : Grid) (activities : List String) : Grid :=
  ⟨setRowCells g.rows 0 (headerCells activities)⟩

/-- The string content of a cell as the values API reports it (header cells
written by this engine are always strings; a numeric or blank cell would
come back as its rendering, irrelevant to header reads, here `""`). -/
def cellString : Cell → String
  | Cell.str v => v
  | _ => ""

/-- `get_activity_columns` (lines 268-288): read range `A1:Z1` (at most the
first 26 cells of row 1) and return everything after the first cell. -/
def get_activity_columns (g : Grid) : List String :=
  if 1 < (((g.rows.getD 0 []).take 26).map cellString).length then
    (((g.rows.getD 0 []).take 26).map cellString).drop 1
  else []

/-- `update_activities_header` (lines 260-266): read the header; a category
already present is a no-op.  For a new category line 266 calls
`self.update_header_row(activities)` — but `update_header_row`'s signature
is `(self, sheet_name, activities=None)`, so the grown category list binds
to `sheet_name` and `activities` stays `None`: the update is attempted
against the unparsable range `"<python-list>!A1:B1"`, the API rejects it,
and `update_header_row` raises `SheetError`.  Nothing is written — a new
category is never appended by this code. -/
def update_activities_header (g : Grid) (activity : String) :
    Except SheetErr Grid × List Op :=
  if activity ∈ get_activity_columns g then (Except.ok g, [Op.readHeader])
  else (Except.error SheetErr.badRange, [Op.readHeader])

/-- `get_date_row_index` (lines 152-171): scan all of column A (header row
included) for the first row whose label equals the zero-padded lookup string,
returning its 1-based index. -/
def get_date_row_index (g : Grid) (y m d : Nat) : Option Nat :=
  (g.rows.findIdx? fun row => colAString row = some (lookupLabel y m d)).map
    fun i => i + 1

/-- `get_row_values` (lines 173-187): the full value list of 1-based row
`row_index`, `[]` when the row is empty or absent. -/
def get_row_values (g : Grid) (row_index : Nat) : List Cell :=
  g.rows.getD (row_index - 1) []

/-- The write range of `update_row` (line 193), `A{r}:{chr(65+len(values))}{r}`:
well-formed only when the end character is an uppercase letter and the row
number is a positive sheet row. -/
def row_range_ok (row_index : Nat) (values : List Cell) : Bool :=
  1 ≤ row_index && 65 + values.length ≤ 90

/-- `update_row` (lines 189-204): overwrite row `row_index` (1-based) with
`values`, failing without a write when the computed range is malformed. -/
def update_row (g : Grid) (row_index : Nat) (values : List Cell) :
    Except SheetErr Grid :=
  if row_range_ok row_index values then
    Except.ok ⟨setRowCells g.rows (row_index - 1) values⟩
  else Except.error SheetErr.badRange

/-- `_ensure_row_length` (client.py lines 237-240 and tracker.py):
`values + [0] * (required_length + 1 - len(values))`, zero-padding the row up
to and including index `required_length` (Python's negative repeat count,
like Nat subtraction, pads nothing when the row is long enough). -/
def ensure_row_length (values : List Cell) (required_length : Nat) : List Cell :=
  values ++ List.replicate (required_length + 1 - values.length) (Cell.num 0)

/-- `_update_activity_duration` (client.py lines 223-235, tracker.py lines
100-116): read the row and the header, locate the activity column, pad the
row, add the duration onto the existing value (blank reads as 0) and write
the whole row back.  `list.index` raises when the activity is absent. -/
def update_activity_duration (g : Grid) (row_index : Nat) (activity : String)
    (duration : ℚ) : Except SheetErr Grid × List Op :=
  let current := get_row_values g row_index
  let activities := get_activity_columns g
  if activity ∈ activities then
    let activity_index := activities.indexOf activity + 1
    let padded := ensure_row_length current activity_index
    let current_duration := cellToQ (padded.getD activity_index Cell.blank)
    let newValues := padded.set activity_index (Cell.num (current_duration + duration))
    match update_row g row_index newValues with
    | Except.ok g2 =>
      (Except.ok g2, [Op.readRow row_index, Op.readHeader, Op.writeRow row_index newValues])
    | Except.error e =>
      (Except.error e, [Op.readRow row_index, Op.readHeader])
  else (Except.error SheetErr.activityNotFound, [Op.readRow row_index, Op.readHeader])

/-- `process_new_entry_sheets` (tracker.py lines 81-98, the live call path):
validate the duration, ensure the activity column (which fails for any
genuinely new category, see `update_activities_header`), resolve the date
row, merge the duration.  Returns the outcome together with the trace of
grid operations performed.  (`process_new_entry` in client.py lines 206-221
is an abandoned copy of the same flow that raises `TypeError` even earlier:
its internal calls at lines 215-216 drop the `sheet_name` argument.) -/
def process_new_entry_sheets (g : Grid) (y m d : Nat) (activity : String)
    (duration : ℚ) : Except UpsertErr Grid × List Op :=
  if duration < 0 then (Except.error UpsertErr.negativeDuration, [])
  else
    match update_activities_header g activity with
    | (Except.error e, t1) => (Except.error (UpsertErr.sheet e), t1)
    | (Except.ok g1, t1) =>
      match get_date_row_index g1 y m d with
      | none => (Except.error UpsertErr.rowNotFound, t1 ++ [Op.readColA])
      | some r =>
        match update_activity_duration g1 r activity duration with
        | (Except.error e, t2) =>
          (Except.error (UpsertErr.sheet e), t1 ++ [Op.readColA] ++ t2)
        | (Except.ok g2, t2) => (Except.ok g2, t1 ++ [Op.readColA] ++ t2)

/-! ## Structure initialization (`initialize_year_structure`) -/

/-- The batching loop of `_perform_initialization` (lines 123-132): collect
generated labels one per row and flush an append every `BATCH_SIZE = 50`
rows, plus once at the end for a nonempty remainder.  Both flush sites
(lines 128 and 132) call `self.append_to_sheet_formatted(batch)` — but that
method's signature is `(self, sheet_name, values)`, so the batch binds to
`sheet_name`, `values` is missing, and the call raises `TypeError` before
any remote append: the loop crashes at its first flush and never writes a
row.  The result carries the (unchanged) grid, the (empty) append trace,
and the uncaught Python error. -/
def batchLoop (g : Grid) (batch : List (List Cell)) :
    List (EntryType × String) → Grid × List Op × Option PyErr
  | [] =>
    if batch.isEmpty then (g, [], none)
    else (g, [], some PyErr.typeErr)
  | e :: rest =>
    if 50 ≤ (batch ++ [[Cell.str e.2]]).length then (g, [], some PyErr.typeErr)
    else batchLoop g (batch ++ [[Cell.str e.2]]) rest

/-- `_perform_initialization` (lines 117-134): clear the surface (line 120,
keyword-correct call) and write the bare header row (line 121,
keyword-correct call, range `A1:B1`), then run the batching loop — which
crashes with a `TypeError` at its first flush (see `batchLoop`).  So the
cited code always leaves exactly the cleared surface with the bare
`["Date"]` header and never writes the skeleton. -/
def perform_initialization (g : Grid) (y : Nat) :
    Grid × List Op × Option PyErr :=
  ((batchLoop (update_header_row (clear_sheet g) []) [] (generate_dates y)).1,
   Op.clearSheet :: Op.writeHeader (headerCells [])
     :: (batchLoop (update_header_row (clear_sheet g) []) [] (generate_dates y)).2.1,
   (batchLoop (update_header_row (clear_sheet g) []) [] (generate_dates y)).2.2)

/-- `initialize_year_structure` (lines 46-62): unless forced, read column A
and compare with the expected label sequence; a match returns with no
further grid operation, anything else runs the (crashing) full
re-initialization.  The `Option PyErr` component is the uncaught
`TypeError`, `none` on the no-op path. -/
def initialize_year_structure (g : Grid) (y : Nat) (force : Bool) :
    Grid × List Op × Option PyErr :=
  if force = false then
    if validate_current_structure (get_current_dates g) (expected_dates y) then
      (g, [Op.readColA], none)
    else
      ((perform_initialization g y).1,
       Op.readColA :: (perform_initialization g y).2.1,
       (perform_initialization g y).2.2)
  else perform_initialization g y

/-! ## Helper lemmas -/

/-- Splitting a concatenation at a separator absent from both prefixes. -/
theorem append_sep_inj {α : Type} (c : α) :
    ∀ (a b r s : List α), c ∉ a → c ∉ b →
      a ++ c :: r = b ++ c :: s → a = b ∧ r = s := by
  intro a
  induction a with
  | nil =>
    intro b r s _ hb h
    cases b with
    | nil => simpa using h
    | cons x xs =>
      simp only [List.nil_append, List.cons_append, List.cons.injEq] at h
      exact absurd (h.1 ▸ List.mem_cons_self x xs) (h.1 ▸ hb)
  | cons x xs ih =>
    intro b r s ha hb h
    cases b with
    | nil =>
      simp only [List.cons_append, List.nil_append, List.cons.injEq] at h
      exact absurd (h.1 ▸ List.mem_cons_self x xs) fun hm => ha (h.1 ▸ hm)
    | cons y ys =>
      simp only [List.cons_append, List.cons.injEq] at h
      obtain ⟨hxy, htl⟩ := h
      have hxs : c ∉ xs := fun hm => ha (List.mem_cons_of_mem _ hm)
      have hys : c ∉ ys := fun hm => hb (List.mem_cons_of_mem _ hm)
      obtain ⟨h1, h2⟩ := ih ys r s hxs hys htl
      exact ⟨by rw [hxy, h1], h2⟩

/-- `(a ++ b).data` unfolds to the concatenation of the data. -/
theorem str_data_append (a b : String) : (a ++ b).data = a.data ++ b.data := rfl

theorem weekdayNames_getD_comma_free (k : Nat) :
    (Char.ofNat 44) ∉ (weekdayNames.getD k "Monday").data ∧
      (weekdayNames.getD k "Monday").data ≠ [] := by
  match k with
  | 0 | 1 | 2 | 3 | 4 | 5 | 6 => exact ⟨by decide, by decide⟩
  | n + 7 =>
    have h : weekdayNames.getD (n + 7) "Monday" = "Monday" := rfl
    rw [h]; exact ⟨by decide, by decide⟩

theorem monthNames_getD_space_free (k : Nat) :
    (Char.ofNat 32) ∉ (monthNames.getD k "January").data := by
  match k with
  | 0 | 1 | 2 | 3 | 4 | 5 | 6 | 7 | 8 | 9 | 10 | 11 => decide
  | n + 12 =>
    have h : monthNames.getD (n + 12) "January" = "January" := rfl
    rw [h]; decide

theorem monthNames_getD_inj :
    ∀ a, a < 12 → ∀ b, b < 12 →
      (monthNames.getD a "January").data = (monthNames.getD b "January").data →
      a = b := by decide

theorem repr_inj_le31 :
    ∀ a, a < 32 → ∀ b, b < 32 → (Nat.repr a).data = (Nat.repr b).data → a = b := by
  decide

theorem daysInMonth_le_31 (y m : Nat) (hm : m ≤ 12) : daysInMonth y m ≤ 31 := by
  unfold daysInMonth monthLengths
  cases hl : isLeap y <;> interval_cases m <;> decide

theorem dateLabel_data (y m d : Nat) :
    (dateLabel y m d).data
      = (weekdayName y m d).data
          ++ (Char.ofNat 44) :: (Char.ofNat 32)
          :: ((monthName m).data ++ (Char.ofNat 32) :: (Nat.repr d).data) := by
  show ((((weekdayName y m d ++ ", ") ++ monthName m) ++ " ") ++ Nat.repr d).data = _
  simp only [str_data_append]
  simp [List.append_assoc]

end HigherPleasures

deriving instance DecidableEq for Except

namespace HigherPleasures

/-! ## Header-reconciler helper lemmas -/

/-- One `ensureColumn` call as a state transition: the Python exception on a
failed header rewrite propagates, leaving the grid unchanged. -/
def ensureColumnStep (g : Grid) (activity : String) : Grid :=
  match (update_activities_header g activity).1 with
  | Except.ok g2 => g2
  | Except.error _ => g

/-- A finite sequence of `ensureColumn` calls. -/
def ensureColumns (g : Grid) : List String → Grid
  | [] => g
  | a :: rest => ensureColumns (ensureColumnStep g a) rest

theorem cols_length_le_25 (g : Grid) : (get_activity_columns g).length ≤ 25 := by
  unfold get_activity_columns
  split
  · simp only [List.length_drop, List.length_map, List.length_take]
    omega
  · simp

/-- Either branch of `update_activities_header` leaves the grid as it was:
the present-category branch returns it untouched, the new-category branch
raises before anything is written. -/
theorem ensureColumnStep_eq (g : Grid) (a : String) : ensureColumnStep g a = g := by
  unfold ensureColumnStep update_activities_header
  by_cases h : a ∈ get_activity_columns g <;> simp [h]

theorem ensureColumns_id (names : List String) :
    ∀ g : Grid, ensureColumns g names = g := by
  induction names with
  | nil => intro g; rfl
  | cons a rest ih =>
    intro g
    show ensureColumns (ensureColumnStep g a) rest = g
    rw [ensureColumnStep_eq, ih]

/-! ## Accumulation helpers (C2) -/

/-- The numeric value of the cell in 1-based row `r`, 0-based column `c`
(so `c = activity_index` of the Python code): blank and absent cells read
as 0, exactly as `float(cell or 0)` does. -/
def cellValue (g : Grid) (r c : Nat) : ℚ :=
  cellToQ ((g.rows.getD (r - 1) []).getD c Cell.blank)

/-- A sequence of sequential upsert merges for one (row, activity) target,
stopping at the first error. -/
def applyUpserts (g : Grid) (r : Nat) (a : String) : List ℚ → Except SheetErr Grid
  | [] => Except.ok g
  | d :: rest =>
    match (update_activity_duration g r a d).1 with
    | Except.ok g2 => applyUpserts g2 r a rest
    | Except.error e => Except.error e

theorem getD_set_self {α : Type} (l : List α) (i : Nat) (x d : α)
    (h : i < l.length) : (l.set i x).getD i d = x := by
  induction l generalizing i with
  | nil => simp at h
  | cons y ys ih =>
    cases i with
    | zero => rfl
    | succ j =>
      have hj : j < ys.length := by simpa using h
      simpa [List.set_cons_succ, List.getD_cons_succ] using ih j hj

theorem getD_set_ne {α : Type} (l : List α) (i j : Nat) (x d : α)
    (h : i ≠ j) : (l.set i x).getD j d = l.getD j d := by
  induction l generalizing i j with
  | nil => simp
  | cons y ys ih =>
    cases i with
    | zero =>
      cases j with
      | zero => exact absurd rfl h
      | succ k => rfl
    | succ i2 =>
      cases j with
      | zero => rfl
      | succ k =>
        have hik : i2 ≠ k := fun he => h (by rw [he])
        simpa [List.set_cons_succ, List.getD_cons_succ] using ih i2 k hik

theorem length_ensure_row_length (values : List Cell) (i : Nat) :
    (ensure_row_length values i).length = max values.length (i + 1) := by
  unfold ensure_row_length
  simp only [List.length_append, List.length_replicate]
  omega

/-- One merge step: under the addressing bounds the write succeeds, the
target cell grows by exactly the duration, and the header, the row count,
and the row-width bound are preserved. -/
theorem update_activity_duration_step (g : Grid) (r : Nat) (a : String)
    (dur : ℚ)
    (hr : 2 ≤ r) (hlen : r ≤ g.rows.length)
    (ha : a ∈ get_activity_columns g)
    (hidx : (get_activity_columns g).indexOf a ≤ 23)
    (hrow : (get_row_values g r).length ≤ 25) :
    ∃ g2, (update_activity_duration g r a dur).1 = Except.ok g2
      ∧ cellValue g2 r ((get_activity_columns g).indexOf a + 1)
          = cellValue g r ((get_activity_columns g).indexOf a + 1) + dur
      ∧ get_activity_columns g2 = get_activity_columns g
      ∧ g2.rows.length = g.rows.length
      ∧ (get_row_values g2 r).length ≤ 25 := by
  have hpadlen : (ensure_row_length (get_row_values g r)
      ((get_activity_columns g).indexOf a + 1)).length
        = max (get_row_values g r).length ((get_activity_columns g).indexOf a + 2) :=
    length_ensure_row_length _ _
  set i := (get_activity_columns g).indexOf a with hidef
  set current := get_row_values g r with hcurdef
  set padded := ensure_row_length current (i + 1) with hpaddef
  set newValues := padded.set (i + 1)
    (Cell.num (cellToQ (padded.getD (i + 1) Cell.blank) + dur)) with hnewdef
  have hplen : padded.length = max current.length (i + 2) := by
    rw [hpaddef]
    rw [length_ensure_row_length]
  have hnewlen : newValues.length = padded.length := by
    rw [hnewdef, List.length_set]
  have hainb : i + 1 < padded.length := by omega
  have hrange : row_range_ok r newValues = true := by
    simp only [row_range_ok, Bool.and_eq_true, decide_eq_true_eq]
    omega
  have hupd : update_row g r newValues
      = Except.ok ⟨g.rows.set (r - 1) newValues⟩ := by
    unfold update_row
    rw [if_pos hrange]
    have hlt : r - 1 < g.rows.length := by omega
    have hdrop : (g.rows.getD (r - 1) []).drop newValues.length = [] := by
      apply List.drop_eq_nil_of_le
      have : (g.rows.getD (r - 1) []).length = current.length := by
        rw [hcurdef]; rfl
      omega
    unfold setRowCells
    rw [if_pos hlt, hdrop, List.append_nil]
  refine ⟨⟨g.rows.set (r - 1) newValues⟩, ?_, ?_, ?_, ?_, ?_⟩
  · unfold update_activity_duration
    rw [if_pos ha]
    show (match update_row g r newValues with
      | Except.ok g2 =>
        (Except.ok g2, [Op.readRow r, Op.readHeader, Op.writeRow r newValues])
      | Except.error e =>
        (Except.error e, [Op.readRow r, Op.readHeader])).1
        = Except.ok (⟨g.rows.set (r - 1) newValues⟩ : Grid)
    rw [hupd]
  · have hrowval : (⟨g.rows.set (r - 1) newValues⟩ : Grid).rows.getD (r - 1) []
        = newValues := getD_set_self _ _ _ _ (by omega)
    unfold cellValue
    rw [hrowval, hnewdef, getD_set_self _ _ _ _ (by omega)]
    show cellToQ (padded.getD (i + 1) Cell.blank) + dur
        = cellToQ ((g.rows.getD (r - 1) []).getD (i + 1) Cell.blank) + dur
    have hcells : cellToQ (padded.getD (i + 1) Cell.blank)
        = cellToQ ((g.rows.getD (r - 1) []).getD (i + 1) Cell.blank) := by
      have hgd : (g.rows.getD (r - 1) []) = current := by rw [hcurdef]; rfl
      rw [hgd]
      by_cases hin : i + 1 < current.length
      · rw [hpaddef]
        unfold ensure_row_length
        rw [List.getD_append _ _ _ _ hin]
      · have hge : current.length ≤ i + 1 := by omega
        have h1 : current.getD (i + 1) Cell.blank = Cell.blank :=
          List.getD_eq_default _ _ hge
        have h2 : padded.getD (i + 1) Cell.blank = Cell.num 0 := by
          rw [hpaddef]
          unfold ensure_row_length
          rw [List.getD_append_right _ _ _ _ hge]
          have hrep : i + 1 - current.length < i + 1 + 1 - current.length := by
            omega
          rw [List.getD_eq_getElem _ _ (by simpa using hrep)]
          simp
        rw [h1, h2]
        rfl
    rw [hcells]
  · have h0 : (⟨g.rows.set (r - 1) newValues⟩ : Grid).rows.getD 0 []
        = g.rows.getD 0 [] := getD_set_ne _ _ _ _ _ (by omega)
    unfold get_activity_columns
    rw [h0]
  · simp
  · show ((⟨g.rows.set (r - 1) newValues⟩ : Grid).rows.getD (r - 1) []).length ≤ 25
    rw [getD_set_self _ _ _ _ (by omega)]
    omega

/-- Sequencing the single-step lemma over a duration list. -/
theorem applyUpserts_spec (r : Nat) (a : String) (ds : List ℚ) :
    ∀ g : Grid, 2 ≤ r → r ≤ g.rows.length → a ∈ get_activity_columns g →
      (get_activity_columns g).indexOf a ≤ 23 →
      (get_row_values g r).length ≤ 25 →
      ∃ g2, applyUpserts g r a ds = Except.ok g2
        ∧ cellValue g2 r ((get_activity_columns g).indexOf a + 1)
            = cellValue g r ((get_activity_columns g).indexOf a + 1) + ds.sum := by
  induction ds with
  | nil =>
    intro g _ _ _ _ _
    exact ⟨g, rfl, by simp⟩
  | cons d rest ih =>
    intro g h1 h2 h3 h4 h5
    obtain ⟨g1, hok, hcell, hcols, hglen, hrlen⟩ :=
      update_activity_duration_step g r a d h1 h2 h3 h4 h5
    obtain ⟨g2, hok2, hcell2⟩ :=
      ih g1 h1 (by omega) (hcols ▸ h3) (hcols ▸ h4) hrlen
    refine ⟨g2, ?_, ?_⟩
    · unfold applyUpserts
      rw [hok]
      exact hok2
    · rw [hcols] at hcell2
      rw [hcell2, hcell, List.sum_cons]
      ring

/-! ## Initialization helpers (C4) -/

theorem validate_true_iff (xs ys : List String) :
    validate_current_structure xs ys = true ↔ xs = ys := by
  unfold validate_current_structure
  induction xs generalizing ys with
  | nil => cases ys <;> simp
  | cons x xt ih =>
    cases ys with
    | nil => simp
    | cons y yt =>
      simp only [List.length_cons, List.zip_cons_cons, List.all_cons,
        Bool.and_eq_true, beq_iff_eq, Nat.add_right_cancel_iff,
        List.cons.injEq]
      constructor
      · rintro ⟨hl, hxy, hall⟩
        exact ⟨hxy, (ih yt).mp (by simp [hl, hall])⟩
      · rintro ⟨hxy, htl⟩
        have := (ih yt).mpr htl
        simp only [Bool.and_eq_true, beq_iff_eq] at this
        exact ⟨this.1, hxy, this.2⟩

theorem batchLoop_fst (items : List (EntryType × String)) :
    ∀ (g : Grid) (batch : List (List Cell)), (batchLoop g batch items).1 = g := by
  induction items with
  | nil =>
    intro g batch
    unfold batchLoop
    split <;> rfl
  | cons e rest ih =>
    intro g batch
    unfold batchLoop
    by_cases hf : 50 ≤ (batch ++ [[Cell.str e.2]]).length
    · rw [if_pos hf]
    · rw [if_neg hf]
      exact ih g _

theorem generate_dates_ne_nil (y : Nat) : generate_dates y ≠ [] := by
  have h1 : 1 ≤ daysInYear y := by
    unfold daysInYear
    split <;> omega
  unfold generate_dates genLoop
  rw [if_pos h1]
  simp

theorem expected_dates_ne_nil (y : Nat) : expected_dates y ≠ [] := by
  intro h
  unfold expected_dates at h
  exact generate_dates_ne_nil y (by simpa using h)

theorem batchLoop_crashes (items : List (EntryType × String)) :
    ∀ (g : Grid) (batch : List (List Cell)), batch ≠ [] ∨ items ≠ [] →
      (batchLoop g batch items).2.2 = some PyErr.typeErr := by
  induction items with
  | nil =>
    intro g batch h
    have hb : batch ≠ [] := by
      rcases h with h | h
      · exact h
      · exact absurd rfl h
    unfold batchLoop
    simp [List.isEmpty_iff, hb]
  | cons e rest ih =>
    intro g batch _
    unfold batchLoop
    by_cases hf : 50 ≤ (batch ++ [[Cell.str e.2]]).length
    · rw [if_pos hf]
    · rw [if_neg hf]
      exact ih g _ (Or.inl (by simp))

/-- Whatever the year, the (crashing) re-initialization leaves exactly the
cleared surface with the bare header row. -/
theorem perform_initialization_fst (g : Grid) (y : Nat) :
    (perform_initialization g y).1 = ⟨[[Cell.str "Date"]]⟩ := by
  unfold perform_initialization
  show (batchLoop (update_header_row (clear_sheet g) []) [] (generate_dates y)).1
      = ⟨[[Cell.str "Date"]]⟩
  rw [batchLoop_fst]
  rfl

theorem perform_initialization_err (g : Grid) (y : Nat) :
    (perform_initialization g y).2.2 = some PyErr.typeErr := by
  unfold perform_initialization
  exact batchLoop_crashes (generate_dates y) _ []
    (Or.inr (generate_dates_ne_nil y))

theorem validate_nil_expected_false (y : Nat) :
    validate_current_structure [] (expected_dates y) = false := by
  cases hb : validate_current_structure [] (expected_dates y)
  · rfl
  · exact absurd ((validate_true_iff _ _).mp hb).symm (expected_dates_ne_nil y)

theorem init_match_eq (g : Grid) (y : Nat)
    (hv : validate_current_structure (get_current_dates g) (expected_dates y)
        = true) :
    initialize_year_structure g y false = (g, [Op.readColA], none) := by
  unfold initialize_year_structure
  simp [hv]

theorem init_mismatch_fst (g : Grid) (y : Nat)
    (hv : validate_current_structure (get_current_dates g) (expected_dates y)
        = false) :
    (initialize_year_structure g y false).1 = ⟨[[Cell.str "Date"]]⟩ := by
  unfold initialize_year_structure
  simp [hv, perform_initialization_fst]

theorem init_mismatch_err (g : Grid) (y : Nat)
    (hv : validate_current_structure (get_current_dates g) (expected_dates y)
        = false) :
    (initialize_year_structure g y false).2.2 = some PyErr.typeErr := by
  unfold initialize_year_structure
  simp [hv, perform_initialization_err]

/-! ## Skeleton structure helpers (C6) -/

/-- The entries the generator emits for the day at ordinal `i`: a week
header exactly when the day opens the walk (January 1) or its ISO week
differs from the previous day's, then the day's date row. -/
def dayBlock (y i : Nat) : List (EntryType × String) :=
  (if i = 1 ∨ ¬ isoWeekOrd y (i - 1) = isoWeekOrd y i then
      [(EntryType.weekHeader, weekLabel (isoWeekOrd y i))]
    else [])
  ++ [(EntryType.dateRow, dateLabelOrd y i)]

theorem genLoop_eq_blocks (y : Nat) :
    ∀ (fuel i : Nat) (cw : Option Nat),
      daysInYear y + 1 ≤ fuel + i →
      ((i = 1 ∧ cw = none) ∨ (2 ≤ i ∧ cw = some (isoWeekOrd y (i - 1)))) →
      genLoop y fuel i cw
        = (List.range' i (daysInYear y + 1 - i)).flatMap (dayBlock y) := by
  intro fuel
  induction fuel with
  | zero =>
    intro i cw hf _
    have hc : daysInYear y + 1 - i = 0 := by omega
    rw [hc]
    rfl
  | succ fuel ih =>
    intro i cw hf hinv
    by_cases hle : i ≤ daysInYear y
    · have hcount : daysInYear y + 1 - i = (daysInYear y - i) + 1 := by omega
      rw [hcount]
      rw [show (List.range' i ((daysInYear y - i) + 1)).flatMap (dayBlock y)
          = dayBlock y i
              ++ (List.range' (i + 1) (daysInYear y - i)).flatMap (dayBlock y)
        from rfl]
      unfold genLoop
      rw [if_pos hle]
      show (if cw = some (isoWeekOrd y i) then []
            else [(EntryType.weekHeader, weekLabel (isoWeekOrd y i))]) ++
          (EntryType.dateRow, dateLabelOrd y i)
            :: genLoop y fuel (i + 1) (some (isoWeekOrd y i))
        = dayBlock y i
            ++ (List.range' (i + 1) (daysInYear y - i)).flatMap (dayBlock y)
      have htail : genLoop y fuel (i + 1) (some (isoWeekOrd y i))
          = (List.range' (i + 1) (daysInYear y + 1 - (i + 1))).flatMap
              (dayBlock y) := by
        apply ih
        · omega
        · right
          exact ⟨by omega, by simp⟩
      have hcount2 : daysInYear y + 1 - (i + 1) = daysInYear y - i := by omega
      rw [hcount2] at htail
      rw [htail]
      unfold dayBlock
      rcases hinv with ⟨hi1, hcw⟩ | ⟨hi2, hcw⟩
      · subst hcw
        rw [if_neg (by simp : ¬ (none : Option Nat) = some (isoWeekOrd y i))]
        rw [if_pos (Or.inl hi1)]
        simp
      · subst hcw
        by_cases hw : isoWeekOrd y (i - 1) = isoWeekOrd y i
        · rw [if_pos (by rw [hw])]
          rw [if_neg (by
            rintro (h1 | h2)
            · omega
            · exact h2 hw)]
          simp
        · rw [if_neg (by simp [hw])]
          rw [if_pos (Or.inr hw)]
          simp
    · have hc : daysInYear y + 1 - i = 0 := by omega
      rw [hc]
      unfold genLoop
      rw [if_neg hle]
      rfl

theorem skeleton_blocks (y : Nat) :
    generate_dates y = (List.range' 1 (daysInYear y)).flatMap (dayBlock y) := by
  unfold generate_dates
  have h := genLoop_eq_blocks y (daysInYear y + 1) 1 none (by omega)
    (Or.inl ⟨rfl, rfl⟩)
  simpa using h

theorem flatMap_dayBlock_filter (y : Nat) (l : List Nat) :
    ((l.flatMap (dayBlock y)).filter fun e => e.1 == EntryType.dateRow)
      = l.map fun i => (EntryType.dateRow, dateLabelOrd y i) := by
  induction l with
  | nil => rfl
  | cons i rest ih =>
    rw [show (i :: rest).flatMap (dayBlock y)
        = dayBlock y i ++ rest.flatMap (dayBlock y) from rfl]
    rw [List.filter_append, ih]
    unfold dayBlock
    split
    · rfl
    · rfl

theorem genLoop_chain (y : Nat) :
    ∀ (fuel i : Nat) (cw : Option Nat),
      List.Chain' (fun a b : EntryType × String =>
          ¬(a.1 = EntryType.weekHeader ∧ b.1 = EntryType.weekHeader))
        (genLoop y fuel i cw) := by
  intro fuel
  induction fuel with
  | zero => intro i cw; simp [genLoop]
  | succ fuel ih =>
    intro i cw
    unfold genLoop
    by_cases hle : i ≤ daysInYear y
    · rw [if_pos hle]
      show List.Chain' _
        ((if cw = some (isoWeekOrd y i) then []
          else [(EntryType.weekHeader, weekLabel (isoWeekOrd y i))]) ++
            (EntryType.dateRow, dateLabelOrd y i)
              :: genLoop y fuel (i + 1) (some (isoWeekOrd y i)))
      split
      · rw [List.nil_append]
        apply List.chain'_cons'.mpr
        refine ⟨?_, ih (i + 1) (some (isoWeekOrd y i))⟩
        intro b _
        intro hab
        exact absurd hab.1 (by simp)
      · rw [List.singleton_append]
        apply List.chain'_cons'.mpr
        constructor
        · intro b hb hab
          have hbd : (EntryType.dateRow, dateLabelOrd y i) = b := by
            simpa using hb
          rw [← hbd] at hab
          exact absurd hab.2 (by simp)
        · apply List.chain'_cons'.mpr
          refine ⟨?_, ih (i + 1) (some (isoWeekOrd y i))⟩
          intro b _
          intro hab
          exact absurd hab.1 (by simp)
    · rw [if_neg hle]
      simp

/-! ## Claim theorems -/

/-- C1 (code bug): the skeleton writes date labels with `%-d` (no leading
zero) but `get_date_row_index` searches with `%d` (zero-padded), so for days
1-9 of any month the two labels differ and the initialized row is never
found.  Demonstrated at 2024-01-05: the write-time label is
"Friday, January 5", the lookup key "Friday, January 05", and a lookup on a
grid holding the written row fails. -/
theorem date_label_write_lookup_mismatch :
    dateLabel 2024 1 5 = "Friday, January 5"
    ∧ lookupLabel 2024 1 5 = "Friday, January 05"
    ∧ dateLabel 2024 1 5 ≠ lookupLabel 2024 1 5
    ∧ get_date_row_index
        ⟨[[Cell.str "Date"], [Cell.str (dateLabel 2024 1 5)]]⟩ 2024 1 5 = none
    ∧ dateLabel 2024 1 15 = lookupLabel 2024 1 15 := by
  exact ⟨by decide, by decide, by decide, by decide, by decide⟩

/-- C3: `_ensure_row_length` padding is safe: the target index is in bounds
afterwards, the padded length is exactly `max (length values) (i + 1)`, the
existing prefix is preserved, every padded cell reads as the number 0, and a
row that is already long enough is returned unchanged. -/
theorem ensure_row_length_safe (values : List Cell) (i : Nat) :
    i < (ensure_row_length values i).length
    ∧ (ensure_row_length values i).length = max values.length (i + 1)
    ∧ (∀ j, j < values.length →
        (ensure_row_length values i).getD j Cell.blank
          = values.getD j Cell.blank)
    ∧ (∀ j, values.length ≤ j → j < (ensure_row_length values i).length →
        (ensure_row_length values i).getD j Cell.blank = Cell.num 0)
    ∧ (i < values.length → ensure_row_length values i = values) := by
  unfold ensure_row_length
  have hlen : (values ++ List.replicate (i + 1 - values.length) (Cell.num 0)).length
      = values.length + (i + 1 - values.length) := by
    simp
  refine ⟨?_, ?_, ?_, ?_, ?_⟩
  · omega
  · omega
  · intro j hj
    exact List.getD_append _ _ _ _ hj
  · intro j hj1 hj2
    rw [List.getD_append_right _ _ _ _ hj1]
    have hjr : j - values.length < i + 1 - values.length := by omega
    calc (List.replicate (i + 1 - values.length) (Cell.num 0)).getD
          (j - values.length) Cell.blank
        = (List.replicate (i + 1 - values.length) (Cell.num 0)).get
            ⟨j - values.length, by simpa using hjr⟩ := by
          rw [List.getD_eq_getElem _ _ (by simpa using hjr)]
          simp
      _ = Cell.num 0 := by simp
  · intro h
    have : i + 1 - values.length = 0 := by omega
    simp [this]

/-- C7: a negative duration is rejected by the validation at the top of the
upsert flow before any grid operation: the result is the validation error and
the operation trace is empty (no header rewrite, no row read, no row write). -/
theorem negative_duration_rejected (g : Grid) (y m d : Nat) (activity : String)
    (duration : ℚ) (hneg : duration < 0) :
    process_new_entry_sheets g y m d activity duration
      = (Except.error UpsertErr.negativeDuration, []) := by
  unfold process_new_entry_sheets
  rw [if_pos hneg]

theorem negative_duration_rejected_w :
    process_new_entry_sheets ⟨[]⟩ 2024 1 15 "Running" (-1)
      = (Except.error UpsertErr.negativeDuration, []) :=
  negative_duration_rejected ⟨[]⟩ 2024 1 15 "Running" (-1) (by norm_num)

/-- C6: for every year the generated skeleton decomposes into one block per
calendar day, in ordinal order 1 .. daysInYear with no gaps: each block is
the day's `DateRow`, immediately preceded by a `WeekHeader` (labelled with
the day's ISO week) exactly when the day is January 1 or its ISO week
differs from the previous day's; consequently the `DateRow` entries are
exactly one per day in date order, and no two consecutive entries are both
week headers. -/
theorem skeleton_week_headers (y : Nat) :
    generate_dates y = (List.range' 1 (daysInYear y)).flatMap (dayBlock y)
    ∧ ((generate_dates y).filter fun e => e.1 == EntryType.dateRow)
        = (List.range' 1 (daysInYear y)).map
            (fun i => (EntryType.dateRow, dateLabelOrd y i))
    ∧ List.Chain' (fun a b : EntryType × String =>
        ¬(a.1 = EntryType.weekHeader ∧ b.1 = EntryType.weekHeader))
        (generate_dates y) := by
  refine ⟨skeleton_blocks y, ?_, ?_⟩
  · rw [skeleton_blocks y]
    exact flatMap_dayBlock_filter y _
  · unfold generate_dates
    exact genLoop_chain y (daysInYear y + 1) 1 none

/-- C9: the write-time date label is injective within a year: distinct
calendar dates of the same year render to distinct strings, because the
label splits unambiguously at the comma (weekday names are comma-free) and
at the following space (month names are space-free), month names are
pairwise distinct, and decimal renderings of days 1..31 are pairwise
distinct. -/
theorem dateLabel_injective (y m1 d1 m2 d2 : Nat)
    (h1 : validMD y m1 d1) (h2 : validMD y m2 d2)
    (hne : ¬(m1 = m2 ∧ d1 = d2)) :
    dateLabel y m1 d1 ≠ dateLabel y m2 d2 := by
  intro heq
  obtain ⟨hm1a, hm1b, hd1a, hd1b⟩ := h1
  obtain ⟨hm2a, hm2b, hd2a, hd2b⟩ := h2
  have hdata := congrArg String.data heq
  rw [dateLabel_data, dateLabel_data] at hdata
  obtain ⟨-, hrest⟩ := append_sep_inj (Char.ofNat 44) _ _ _ _
    (weekdayNames_getD_comma_free (weekdayIdx y m1 d1)).1
    (weekdayNames_getD_comma_free (weekdayIdx y m2 d2)).1 hdata
  injection hrest with _ hrest2
  obtain ⟨hmn, hdg⟩ := append_sep_inj (Char.ofNat 32) _ _ _ _
    (monthNames_getD_space_free (m1 - 1)) (monthNames_getD_space_free (m2 - 1))
    hrest2
  have hm : m1 = m2 := by
    have := monthNames_getD_inj (m1 - 1) (by omega) (m2 - 1) (by omega) hmn
    omega
  have hd : d1 = d2 := by
    have hb1 : d1 < 32 := by
      have := daysInMonth_le_31 y m1 hm1b
      omega
    have hb2 : d2 < 32 := by
      have := daysInMonth_le_31 y m2 hm2b
      omega
    exact repr_inj_le31 d1 hb1 d2 hb2 hdg
  exact hne ⟨hm, hd⟩

theorem dateLabel_injective_w :
    validMD 2024 1 5 ∧ validMD 2024 1 6 ∧ ¬((1 : Nat) = 1 ∧ (5 : Nat) = 6)
    ∧ dateLabel 2024 1 5 ≠ dateLabel 2024 1 6 :=
  ⟨by decide, by decide, by decide,
    dateLabel_injective 2024 1 5 1 6 (by decide) (by decide) (by decide)⟩

/-- C4: initialization (force = false) is idempotent in grid content, and
matching labels mean no write at all.  When the column-1 labels (header
skipped) already equal the expected sequence element-wise, the call performs
exactly one column read and nothing else.  On any other grid the cited code
clears the surface, writes the bare header, and then crashes with an
uncaught `TypeError` (the `append_to_sheet_formatted(batch)` call sites drop
the `values` argument), leaving exactly `[["Date"]]` — so a second call,
which again finds a non-matching surface, reproduces that same content:
after any first call the content after the second call equals the content
after the first. -/
theorem initialization_idempotent (g : Grid) (y : Nat) :
    (initialize_year_structure (initialize_year_structure g y false).1 y false).1
        = (initialize_year_structure g y false).1
    ∧ (validate_current_structure (get_current_dates g) (expected_dates y)
          = true →
        initialize_year_structure g y false = (g, [Op.readColA], none))
    ∧ (validate_current_structure (get_current_dates g) (expected_dates y)
          = false →
        (initialize_year_structure g y false).1 = ⟨[[Cell.str "Date"]]⟩
          ∧ (initialize_year_structure g y false).2.2 = some PyErr.typeErr) := by
  refine ⟨?_, init_match_eq g y, fun hv => ⟨init_mismatch_fst g y hv,
    init_mismatch_err g y hv⟩⟩
  by_cases hv : validate_current_structure (get_current_dates g)
      (expected_dates y) = true
  · have h1 := init_match_eq g y hv
    rw [h1]
    show (initialize_year_structure g y false).1 = g
    rw [h1]
  · have hv2 : validate_current_structure (get_current_dates g)
        (expected_dates y) = false := by
      revert hv
      cases validate_current_structure (get_current_dates g) (expected_dates y) <;>
        simp
    have h1 := init_mismatch_fst g y hv2
    rw [h1]
    have hcur : get_current_dates (⟨[[Cell.str "Date"]]⟩ : Grid) = [] := rfl
    apply init_mismatch_fst
    rw [hcur]
    exact validate_nil_expected_false y

/-- C2: starting from a blank cell, sequential merges of durations
`d1..dn ≥ 0` leave the cell equal to their sum; any permutation of the call
order produces the same final value; and each single write sets the cell to
(existing value, 0 when blank) + duration and never decreases it.  The
addressing hypotheses are those of any reachable upsert: a date row below
the header, the activity present in the header within the writable `A..Z`
range, and a row that fits that range. -/
theorem upsert_accumulates (g : Grid) (r : Nat) (a : String) (ds : List ℚ)
    (hr : 2 ≤ r) (hlen : r ≤ g.rows.length)
    (ha : a ∈ get_activity_columns g)
    (hidx : (get_activity_columns g).indexOf a ≤ 23)
    (hrow : (get_row_values g r).length ≤ 25)
    (hblank : cellValue g r ((get_activity_columns g).indexOf a + 1) = 0)
    (_hnn : ∀ d, d ∈ ds → 0 ≤ d) :
    (∃ g2, applyUpserts g r a ds = Except.ok g2
        ∧ cellValue g2 r ((get_activity_columns g).indexOf a + 1) = ds.sum)
    ∧ (∀ ds2, ds.Perm ds2 →
        ∃ g2, applyUpserts g r a ds2 = Except.ok g2
          ∧ cellValue g2 r ((get_activity_columns g).indexOf a + 1) = ds.sum)
    ∧ (∀ dur : ℚ, 0 ≤ dur →
        ∃ g2, (update_activity_duration g r a dur).1 = Except.ok g2
          ∧ cellValue g2 r ((get_activity_columns g).indexOf a + 1)
              = cellValue g r ((get_activity_columns g).indexOf a + 1) + dur
          ∧ cellValue g r ((get_activity_columns g).indexOf a + 1)
              ≤ cellValue g2 r ((get_activity_columns g).indexOf a + 1)) := by
  refine ⟨?_, ?_, ?_⟩
  · obtain ⟨g2, hok, hc⟩ := applyUpserts_spec r a ds g hr hlen ha hidx hrow
    exact ⟨g2, hok, by rw [hc, hblank]; ring⟩
  · intro ds2 hperm
    obtain ⟨g2, hok, hc⟩ := applyUpserts_spec r a ds2 g hr hlen ha hidx hrow
    refine ⟨g2, hok, ?_⟩
    rw [hc, hblank, hperm.sum_eq]
    ring
  · intro dur hdur
    obtain ⟨g2, hok, hc, _, _, _⟩ :=
      update_activity_duration_step g r a dur hr hlen ha hidx hrow
    exact ⟨g2, hok, hc, by rw [hc]; linarith⟩

/-- A small reachable grid for exercising the accumulation theorem: header
with one category, one date row with a blank cell for it. -/
def gridAcc : Grid :=
  ⟨[[Cell.str "Date", Cell.str "Running"], [Cell.str "Monday, January 15"]]⟩

theorem upsert_accumulates_w :
    (∃ g2, applyUpserts gridAcc 2 "Running" [1, 2] = Except.ok g2
        ∧ cellValue g2 2 ((get_activity_columns gridAcc).indexOf "Running" + 1)
            = ([1, 2] : List ℚ).sum)
    ∧ (∀ ds2, List.Perm ([1, 2] : List ℚ) ds2 →
        ∃ g2, applyUpserts gridAcc 2 "Running" ds2 = Except.ok g2
          ∧ cellValue g2 2 ((get_activity_columns gridAcc).indexOf "Running" + 1)
              = ([1, 2] : List ℚ).sum)
    ∧ (∀ dur : ℚ, 0 ≤ dur →
        ∃ g2, (update_activity_duration gridAcc 2 "Running" dur).1 = Except.ok g2
          ∧ cellValue g2 2 ((get_activity_columns gridAcc).indexOf "Running" + 1)
              = cellValue gridAcc 2 ((get_activity_columns gridAcc).indexOf "Running" + 1)
                  + dur
          ∧ cellValue gridAcc 2 ((get_activity_columns gridAcc).indexOf "Running" + 1)
              ≤ cellValue g2 2 ((get_activity_columns gridAcc).indexOf "Running" + 1)) :=
  upsert_accumulates gridAcc 2 "Running" [1, 2] (by decide) (by decide) (by decide)
    (by decide) (by decide) (by decide) (by decide)

/-- C8 counterexample: an upsert with an empty category name does fail and
writes nothing, but NOT with a validation error naming the offending field:
the failure is the generic sheet error from the broken header-rewrite call
(client.py:266 binds the category list to `sheet_name`), and the identical
failure occurs for a perfectly ordinary nonempty category name — the
emptiness of the name is never examined. -/
theorem empty_category_error_kind :
    process_new_entry_sheets ⟨[[Cell.str "Date"], [Cell.str "Monday, January 15"]]⟩
        2024 1 15 "" 1
      = (Except.error (UpsertErr.sheet SheetErr.badRange), [Op.readHeader])
    ∧ process_new_entry_sheets ⟨[[Cell.str "Date"], [Cell.str "Monday, January 15"]]⟩
        2024 1 15 "Running" 1
      = (Except.error (UpsertErr.sheet SheetErr.badRange), [Op.readHeader]) := by
  exact ⟨by decide, by decide⟩

/-- C8 amended: no category-name validation exists.  An upsert whose
category (empty or not) is absent from the header fails with the same
`SheetError` — raised by the mis-bound `update_header_row` call, not by any
inspection of the name — and the grid is left unchanged, so no column is
ever created for the empty name (nor for any new name). -/
theorem empty_category_no_validation (g : Grid) (a : String)
    (hempty : ("" : String) ∉ get_activity_columns g)
    (ha : a ∉ get_activity_columns g) :
    update_activities_header g ""
        = (Except.error SheetErr.badRange, [Op.readHeader])
    ∧ update_activities_header g a
        = (Except.error SheetErr.badRange, [Op.readHeader])
    ∧ ensureColumnStep g "" = g := by
  refine ⟨?_, ?_, ensureColumnStep_eq g ""⟩
  · unfold update_activities_header
    simp [hempty]
  · unfold update_activities_header
    simp [ha]

theorem empty_category_no_validation_w :
    update_activities_header ⟨[[Cell.str "Date"]]⟩ ""
        = (Except.error SheetErr.badRange, [Op.readHeader])
    ∧ update_activities_header ⟨[[Cell.str "Date"]]⟩ "Running"
        = (Except.error SheetErr.badRange, [Op.readHeader])
    ∧ ensureColumnStep ⟨[[Cell.str "Date"]]⟩ "" = ⟨[[Cell.str "Date"]]⟩ :=
  empty_category_no_validation ⟨[[Cell.str "Date"]]⟩ "Running" (by decide)
    (by decide)

/-- C5 counterexample: a genuinely new category is never appended.  Even on
a bare header with no categories at all, ensuring "Running" fails with a
sheet error (the internal `update_header_row(activities)` call at
client.py:266 drops the `activities` argument and targets an unparsable
range), nothing is written, and "Running" gets no column. -/
theorem new_category_never_appended :
    update_activities_header ⟨[[Cell.str "Date"]]⟩ "Running"
        = (Except.error SheetErr.badRange, [Op.readHeader])
    ∧ "Running" ∉ get_activity_columns
        (ensureColumnStep ⟨[[Cell.str "Date"]]⟩ "Running") := by
  exact ⟨by decide, by decide⟩

/-- C5 amended: every `ensureColumn` call leaves the grid unchanged, so
across any finite sequence of calls every category already present trivially
keeps its exact column index and remains present; a call with an
already-present category is a successful no-op; but a genuinely new category
is never appended at any category count: the header rewrite always fails
with a `SheetError`, because the call site drops the `activities` argument
(the list binds to `sheet_name`, producing an unparsable range). -/
theorem ensure_column_never_appends (g : Grid) (names : List String)
    (a : String) :
    ensureColumns g names = g
    ∧ (∀ c, c ∈ get_activity_columns g →
        (get_activity_columns (ensureColumns g names)).indexOf c
            = (get_activity_columns g).indexOf c
          ∧ c ∈ get_activity_columns (ensureColumns g names))
    ∧ (a ∈ get_activity_columns g →
        update_activities_header g a = (Except.ok g, [Op.readHeader]))
    ∧ (a ∉ get_activity_columns g →
        update_activities_header g a
          = (Except.error SheetErr.badRange, [Op.readHeader])) := by
  refine ⟨ensureColumns_id names g, ?_, ?_, ?_⟩
  · intro c hc
    rw [ensureColumns_id names g]
    exact ⟨rfl, hc⟩
  · intro hmem
    unfold update_activities_header
    simp [hmem]
  · intro hmem
    unfold update_activities_header
    simp [hmem]

/-- A header holding 25 activity categories: within the claimed 25-category
bound, yet already past what the write-range arithmetic can address. -/
def acts25 : List String := (List.range 25).map fun n => "c" ++ Nat.repr n

def grid25 : Grid := ⟨[headerCells acts25]⟩

/-- C10 counterexample: with 25 categories the header row has 26 cells, the
computed end-column character code is `65 + 26 = 91` (`"["`, not a letter),
so the header write range is malformed — and a full 26-cell data row is
equally unwritable.  The "at most 25 categories" bound of the claim is one
too generous. -/
theorem column_letter_overflow_at_25 :
    (get_activity_columns grid25).length = 25
    ∧ 65 + (1 + (get_activity_columns grid25).length) = 91
    ∧ header_range_ok (get_activity_columns grid25) = false
    ∧ row_range_ok 2 (headerCells (get_activity_columns grid25)) = false := by
  exact ⟨by decide, by decide, by decide, by decide⟩

/-- Reference reading of every category of the physical header row, with no
`A1:Z1` truncation: the comparison point for "header reads see every
category". -/
def all_header_categories (g : Grid) : List String :=
  if 1 < ((g.rows.getD 0 []).map cellString).length then
    ((g.rows.getD 0 []).map cellString).drop 1
  else []

/-- C10 amended: `get_activity_columns` returns at most 25 names for any
grid; the single-character end column `chr(65 + len)` is a valid column
letter exactly when the written value list has at most 25 cells (24
categories beside the label); header reads see every category whenever the
physical header row fits in `A..Z` (at most 26 cells); and the row write
performed by an upsert is well-formed whenever the row has at most 25 cells
and the target category index is at most 23. -/
theorem grid_addressing_bounds (g : Grid) (activities : List String) (r : Nat)
    (values : List Cell) (i : Nat) :
    (get_activity_columns g).length ≤ 25
    ∧ (header_range_ok activities = true ↔ activities.length ≤ 24)
    ∧ (row_range_ok r values = true ↔ 1 ≤ r ∧ values.length ≤ 25)
    ∧ ((g.rows.getD 0 []).length ≤ 26 →
        get_activity_columns g = all_header_categories g)
    ∧ (values.length ≤ 25 → i ≤ 23 → 1 ≤ r →
        row_range_ok r (ensure_row_length values (i + 1)) = true) := by
  refine ⟨cols_length_le_25 g, ?_, ?_, ?_, ?_⟩
  · simp only [header_range_ok, decide_eq_true_eq]
    omega
  · simp only [row_range_ok, Bool.and_eq_true, decide_eq_true_eq]
    omega
  · intro hphys
    unfold get_activity_columns all_header_categories
    rw [List.take_of_length_le hphys]
  · intro hv hi hr
    simp only [row_range_ok, ensure_row_length, Bool.and_eq_true,
      decide_eq_true_eq, List.length_append, List.length_replicate]
    omega

end HigherPleasures
